import Mathlib

/-!
Verification of the caddy-cloudflare-ip module (caddyfile.go).

The Go code is shallowly embedded: pure parsing helpers become Lean
functions on lists of characters, the module struct becomes a Lean
structure, and the effectful parts (HTTP requests, the ticker, the
context) are made explicit as data passed to the embedded functions.
Machine integers are modelled as Nat/Int; where the Go code checks
64-bit overflow explicitly, the same bounds are checked explicitly here.

The module's own code lives in caddyfile.go.  It calls a handful of
library functions (net/netip address parsing and printing,
caddyhttp.CIDRExpressionToPrefix, caddy.ParseDuration /
time.ParseDuration); those are embedded here as well, translated from
the corresponding library sources, since the module's observable
behaviour depends on them.
-/

deriving instance DecidableEq for Except

namespace CloudflareIP

/-! ## net/netip model: addresses -/

/-- An IP address as in net/netip: either a 4-byte IPv4 address or an
IPv6 address of eight 16-bit groups plus an optional zone.  (Go stores
both in one 16-byte value and distinguishes them by a zone sentinel;
the two constructors mirror `Is4` / `Is6`.) -/
inductive Addr : Type
  | v4 (a b c d : Nat)
  | v6 (groups : List Nat) (zone : String)
  deriving DecidableEq, Repr

def isDigit (c : Char) : Bool := decide (48 ≤ c.toNat) && decide (c.toNat ≤ 57)

def digitVal (c : Char) : Nat := c.toNat - 48

/-- Translation of netip's `parseIPv4Fields` scan: accumulates dotted
decimal octets.  `val`/`digLen` are the value and digit count of the
current octet, `fields` the completed octets.  The Go code indexes the
input to detect an empty octet (`i == 0 || s[i-1] == '.'`, i.e. no digit
consumed yet, tracked here by `digLen = 0`) and a trailing dot
(`i == len(s)-1`, i.e. the rest is empty). -/
def parseIPv4Fields (val digLen pos : Nat) (fields : List Nat) :
    List Char → Except String (List Nat)
  | [] =>
    if pos < 3 then .error "IPv4 address too short"
    else .ok (fields ++ [val])
  | c :: rest =>
    if isDigit c then
      if digLen = 1 && val = 0 then
        .error "IPv4 field has octet with leading zero"
      else
        let val2 := val * 10 + digitVal c
        if val2 > 255 then .error "IPv4 field has value >255"
        else parseIPv4Fields val2 (digLen + 1) pos fields rest
    else if c = '.' then
      if digLen = 0 || rest.isEmpty then
        .error "IPv4 field must have at least one digit"
      else if pos = 3 then .error "IPv4 address too long"
      else parseIPv4Fields 0 0 (pos + 1) (fields ++ [val]) rest
    else .error "unexpected character"

/-- netip `parseIPv4`. -/
def parseIPv4 (s : List Char) : Except String Addr :=
  match parseIPv4Fields 0 0 0 [] s with
  | .error e => .error e
  | .ok fs =>
    match fs with
    | [a, b, c, d] => .ok (.v4 a b c d)
    | _ => .error "IPv4 address too short"

/-- Split an IPv6 literal at the first percent sign into address part
and zone part (netip does this at the start of `parseIPv6`). -/
def splitZone : List Char → List Char × Option (List Char)
  | [] => ([], none)
  | c :: rest =>
    if c = '%' then ([], some rest)
    else
      let (a, z) := splitZone rest
      (c :: a, z)

def isHexDigit (c : Char) : Bool :=
  isDigit c || (decide (97 ≤ c.toNat) && decide (c.toNat ≤ 102))
    || (decide (65 ≤ c.toNat) && decide (c.toNat ≤ 70))

def hexVal (c : Char) : Nat :=
  if isDigit c then c.toNat - 48
  else if decide (97 ≤ c.toNat) then c.toNat - 87
  else c.toNat - 55

/-- The inlined hex-field scan of netip `parseIPv6`: reads hex digits,
erroring when the accumulated value reaches 2^16.  Returns the value,
the number of digits consumed, and the rest. -/
def parseHexField (acc cnt : Nat) : List Char → Except String (Nat × Nat × List Char)
  | [] => .ok (acc, cnt, [])
  | c :: rest =>
    if isHexDigit c then
      let acc2 := acc * 16 + hexVal c
      if acc2 > 65535 then .error "IPv6 field has value >=2^16"
      else parseHexField acc2 (cnt + 1) rest
    else .ok (acc, cnt, c :: rest)

/-- The body of netip `parseIPv6`'s `for i < 16` loop.  `fuel` is the
number of 16-bit groups still missing (the loop guard `i < 16`),
`groups` the groups parsed so far, `ellipsis` the group index of a `::`
if one was seen.  Returns the groups, the ellipsis position, and the
unconsumed rest of the input (the loop can exit with input left over,
which the caller rejects as trailing garbage). -/
def parseIPv6Groups (fuel : Nat) (groups : List Nat) (ellipsis : Option Nat)
    (s : List Char) : Except String (List Nat × Option Nat × List Char) :=
  match fuel with
  | 0 => .ok (groups, ellipsis, s)
  | fuel + 1 =>
    match parseHexField 0 0 s with
    | .error e => .error e
    | .ok (acc, cnt, rest) =>
      if cnt = 0 then
        .error "each colon-separated field must have at least one digit"
      else if rest.head? = some '.' then
        -- an embedded IPv4 address must replace the final two groups
        if ellipsis.isNone && groups.length ≠ 6 then
          .error "embedded IPv4 address must replace the final 2 fields of the address"
        else if groups.length + 2 > 8 then
          .error "too many hex fields to fit an embedded IPv4 address"
        else
          -- the whole remaining input (including the field just
          -- scanned) is re-parsed as dotted decimal
          match parseIPv4 s with
          | .error e => .error e
          | .ok (.v4 a b c d) =>
            .ok (groups ++ [a * 256 + b, c * 256 + d], ellipsis, [])
          | .ok _ => .error "unexpected character"
      else
        let groups2 := groups ++ [acc]
        match rest with
        | [] => .ok (groups2, ellipsis, [])
        | c :: rest2 =>
          if c ≠ ':' then .error "unexpected character"
          else match rest2 with
          | [] => .error "colon must be followed by more characters"
          | c2 :: rest3 =>
            if c2 = ':' then
              if ellipsis.isSome then .error "multiple :: in address"
              else match rest3 with
              | [] => .ok (groups2, some groups2.length, [])
              | _ => parseIPv6Groups fuel groups2 (some groups2.length) rest3
            else parseIPv6Groups fuel groups2 ellipsis rest2

/-- Expand a `::` at group index `e` so that the address has exactly
eight groups (netip's back-to-front byte shuffling, done here on the
group list). -/
def expandEllipsis (groups : List Nat) (e : Nat) : List Nat :=
  groups.take e ++ List.replicate (8 - groups.length) 0 ++ groups.drop e

/-- netip `parseIPv6`. -/
def parseIPv6 (input : List Char) : Except String Addr :=
  let (s0, zoneOpt) := splitZone input
  match zoneOpt with
  | some [] => .error "zone must be a non-empty string"
  | _ =>
    let zone : String := String.mk (zoneOpt.getD [])
    let start : Except String (List Nat × Option Nat × List Char) :=
      match s0 with
      | ':' :: ':' :: rest =>
        match rest with
        | [] => .ok ([0, 0, 0, 0, 0, 0, 0, 0], none, [])
        | _ => parseIPv6Groups 8 [] (some 0) rest
      | _ => parseIPv6Groups 8 [] none s0
    match start with
    | .error e => .error e
    | .ok (groups, ellipsis, leftover) =>
      if leftover ≠ [] then .error "trailing garbage after address"
      else if groups.length < 8 then
        match ellipsis with
        | none => .error "address string too short"
        | some e => .ok (.v6 (expandEllipsis groups e) zone)
      else if ellipsis.isSome then
        .error "the :: must expand to at least one field of zeros"
      else .ok (.v6 groups zone)

/-- netip `ParseAddr`: dispatch on the first of `.`, `:`, `%`. -/
def parseAddrDispatch (s : List Char) : List Char → Except String Addr
  | [] => .error "unable to parse IP"
  | c :: rest =>
    if c = '.' then parseIPv4 s
    else if c = ':' then parseIPv6 s
    else if c = '%' then .error "missing IPv6 address"
    else parseAddrDispatch s rest

def ParseAddr (s : String) : Except String Addr :=
  parseAddrDispatch s.toList s.toList

/-! ## net/netip model: printing -/

def hexDigitChar (n : Nat) : Char :=
  if n < 10 then Char.ofNat (48 + n) else Char.ofNat (87 + n)

/-- Lowercase hex of a 16-bit group without leading zeros (netip's
`appendHex`).  Fuel-bounded division loop; five digits cover 16 bits. -/
def hexChars : Nat → Nat → List Char
  | _, 0 => []
  | 0, _ => []
  | fuel + 1, n => hexChars fuel (n / 16) ++ [hexDigitChar (n % 16)]

def hexStr (n : Nat) : String :=
  if n = 0 then "0" else String.mk (hexChars 5 n)

/-- netip `string4`: dotted decimal. -/
def string4 (a b c d : Nat) : String :=
  toString a ++ "." ++ toString b ++ "." ++ toString c ++ "." ++ toString d

/-- The zero-run search of netip `string6`: the leftmost longest run of
at least two all-zero groups (a later run replaces the current best
only when strictly longer, matching `l > zeroEnd-zeroStart`). -/
def findZeroRun (groups : List Nat) : Option (Nat × Nat) :=
  (List.range groups.length).foldl
    (fun best i =>
      let l := ((groups.drop i).takeWhile (fun g => g = 0)).length
      match best with
      | none => if l ≥ 2 then some (i, i + l) else none
      | some (zs, ze) => if l ≥ 2 && l > ze - zs then some (i, i + l) else best)
    none

/-- netip `string6` without the zone suffix: hex groups joined by
colons, with the chosen zero run compressed to `::`.  (The Go loop
writes the groups before the run separated by colons, then `::`, then
the groups from the run's end, again separated by colons; that is
exactly the take/drop rendering below.) -/
def string6Core (groups : List Nat) : String :=
  let hexes := groups.map hexStr
  match findZeroRun groups with
  | none => String.intercalate ":" hexes
  | some (zs, ze) =>
    String.intercalate ":" (hexes.take zs) ++ "::"
      ++ String.intercalate ":" (hexes.drop ze)

/-- netip `Addr.Is4In6`: the first five groups are zero and the sixth
is 0xffff. -/
def Addr.is4In6 : Addr → Bool
  | .v4 _ _ _ _ => false
  | .v6 groups _ =>
    groups.take 5 == [0, 0, 0, 0, 0] && (groups.drop 5).head? == some 65535

/-- netip `Addr.String`. -/
def Addr.render : Addr → String
  | .v4 a b c d => string4 a b c d
  | .v6 groups zone =>
    let zoneSuffix := if zone = "" then "" else "%" ++ zone
    if (Addr.v6 groups zone).is4In6 then
      let g6 := (groups.drop 6).headD 0
      let g7 := (groups.drop 7).headD 0
      "::ffff:" ++ string4 (g6 / 256) (g6 % 256) (g7 / 256) (g7 % 256) ++ zoneSuffix
    else
      string6Core groups ++ zoneSuffix

/-- netip `Addr.BitLen`. -/
def Addr.bitLen : Addr → Nat
  | .v4 _ _ _ _ => 32
  | .v6 _ _ => 128

def Addr.zone : Addr → String
  | .v4 _ _ _ _ => ""
  | .v6 _ z => z

def Addr.withoutZone : Addr → Addr
  | .v4 a b c d => .v4 a b c d
  | .v6 groups _ => .v6 groups ""

def Addr.is6 : Addr → Bool
  | .v4 _ _ _ _ => false
  | .v6 _ _ => true

/-! ## net/netip model: prefixes -/

/-- netip `Prefix`: an address plus a prefix length. -/
structure IPPrefix : Type where
  addr : Addr
  bits : Nat
  deriving DecidableEq, Repr

/-- netip `PrefixFrom`: drops the zone.  (Go stores -1 when `bits` is
out of range; every call in this development passes an in-range length,
checked by the callers exactly as in Go.) -/
def PrefixFrom (ip : Addr) (bits : Nat) : IPPrefix :=
  ⟨ip.withoutZone, bits⟩

/-- netip `Prefix.String`. -/
def IPPrefix.render (p : IPPrefix) : String :=
  p.addr.render ++ "/" ++ toString p.bits

/-- The `/bits` part of netip `ParsePrefix`: Go runs `strconv.Atoi`,
rejects values outside `0..maxBits`, and rejects a multi-character
string not starting with `1`-`9` (leading zeros, signs).  The net
effect, modelled directly: a nonempty all-digit string, no leading
zero unless exactly "0", value at most `maxBits`.  (Inputs with signs
or huge values are rejected by both, with differing messages.) -/
def parseBitsStr (s : List Char) (maxBits : Nat) : Except String Nat :=
  if s.isEmpty || s.any (fun c => !isDigit c) then
    .error "bad bits after slash"
  else
    let v := s.foldl (fun acc c => acc * 10 + digitVal c) 0
    if v > maxBits then .error "prefix length out of range"
    else if s.length > 1 && (s.headD '0' = '0') then
      .error "bad bits after slash"
    else .ok v

/-- Index of the last `/`, as netip `ParsePrefix` finds it. -/
def lastSlashSplit (s : List Char) : Option (List Char × List Char) :=
  match s with
  | [] => none
  | c :: rest =>
    match lastSlashSplit rest with
    | some (a, b) => some (c :: a, b)
    | none => if c = '/' then some ([], rest) else none

/-- netip `ParsePrefix`. -/
def ParsePrefix (s : String) : Except String IPPrefix :=
  match lastSlashSplit s.toList with
  | none => .error "no slash"
  | some (addrPart, bitsPart) =>
    match parseAddrDispatch addrPart addrPart with
    | .error e => .error e
    | .ok ip =>
      if ip.zone ≠ "" then
        .error "IPv6 zones cannot be present in a prefix"
      else
        let maxBits := if ip.is6 then 128 else 32
        match parseBitsStr bitsPart maxBits with
        | .error e => .error e
        | .ok bits => .ok (PrefixFrom ip bits)

/-! ## caddyhttp.CIDRExpressionToPrefix -/

/-- caddyhttp `CIDRExpressionToPrefix`: a string with a slash is parsed
as a CIDR prefix; otherwise it is parsed as a single address and turned
into a full-length prefix. -/
def CIDRExpressionToPrefix (expr : String) : Except String IPPrefix :=
  if expr.toList.contains '/' then
    match ParsePrefix expr with
    | .error e => .error ("parsing CIDR expression: " ++ expr ++ ": " ++ e)
    | .ok p => .ok p
  else
    match ParseAddr expr with
    | .error e => .error ("invalid IP address: " ++ expr ++ ": " ++ e)
    | .ok addr => .ok (PrefixFrom addr addr.bitLen)

/-! ## time.ParseDuration / caddy.ParseDuration model

Durations are int64 nanosecond counts; they are modelled as `Int` with
the Go code's explicit 2^63 overflow checks carried over. -/

/-- time `leadingInt`: decimal digits with uint64 overflow detection. -/
def leadingInt (x : Nat) : List Char → Except Unit (Nat × List Char)
  | [] => .ok (x, [])
  | c :: rest =>
    if isDigit c then
      if x > 2 ^ 63 / 10 then .error ()
      else
        let x2 := x * 10 + digitVal c
        if x2 > 2 ^ 63 then .error ()
        else leadingInt x2 rest
    else .ok (x, c :: rest)

/-- time `leadingFraction`: digits after the decimal point; once the
value would overflow, further digits are consumed but ignored and the
scale stops growing. -/
def leadingFraction (x scale : Nat) (overflow : Bool) :
    List Char → Nat × Nat × List Char
  | [] => (x, scale, [])
  | c :: rest =>
    if isDigit c then
      if overflow then leadingFraction x scale true rest
      else if x > (2 ^ 63 - 1) / 10 then leadingFraction x scale true rest
      else
        let y := x * 10 + digitVal c
        if y > 2 ^ 63 then leadingFraction x scale true rest
        else leadingFraction y (scale * 10) false rest
    else (x, scale, c :: rest)

def isUnitChar (c : Char) : Bool := !(c = '.' || isDigit c)

/-- The unit table of time `ParseDuration` (`µs` U+00B5 and `μs` U+03BC
are the same microsecond unit). -/
def unitLookup : List Char → Option Nat
  | ['n', 's'] => some 1
  | ['u', 's'] => some 1000
  | ['\xb5', 's'] => some 1000
  | ['μ', 's'] => some 1000
  | ['m', 's'] => some 1000000
  | ['s'] => some 1000000000
  | ['m'] => some 60000000000
  | ['h'] => some 3600000000000
  | _ => none

/-- One `for s != ""` pass of time `ParseDuration`, accumulating into
`d`.  Each iteration consumes a number, an optional fraction and a
nonempty unit, so the fuel (initially the input length plus one) never
runs out on real input.  The fractional contribution is
`f * unit / scale`: the Go code computes it in float64, which is exact
for every duration that appears in practice; the model uses exact
integer arithmetic. -/
def parseDurChunks (fuel : Nat) (d : Nat) (s : List Char) : Except String Nat :=
  match fuel with
  | 0 => .error "invalid duration"
  | fuel + 1 =>
    match s with
    | [] => .ok d
    | c :: _ =>
      if !(c = '.' || isDigit c) then .error "invalid duration"
      else
        match leadingInt 0 s with
        | .error _ => .error "invalid duration"
        | .ok (v, s1) =>
          let pre := s1.length != s.length
          let (f, scale, s3, post) :=
            match s1 with
            | '.' :: s2 =>
              let (f, scale, s3) := leadingFraction 0 1 false s2
              (f, scale, s3, s3.length != s2.length)
            | _ => (0, 1, s1, false)
          if !pre && !post then .error "invalid duration"
          else
            let u := s3.takeWhile isUnitChar
            let s4 := s3.dropWhile isUnitChar
            if u.isEmpty then .error "missing unit in duration"
            else
              match unitLookup u with
              | none => .error "unknown unit"
              | some unit =>
                if v > 2 ^ 63 / unit then .error "invalid duration"
                else
                  let v2 := v * unit
                  let v3 := if f > 0 then v2 + f * unit / scale else v2
                  if v3 > 2 ^ 63 then .error "invalid duration"
                  else
                    let d2 := d + v3
                    if d2 > 2 ^ 63 then .error "invalid duration"
                    else parseDurChunks fuel d2 s4

/-- time `ParseDuration`. -/
def timeParseDuration (s : String) : Except String Int :=
  let cs := s.toList
  let (neg, cs1) :=
    match cs with
    | '-' :: rest => (true, rest)
    | '+' :: rest => (false, rest)
    | _ => (false, cs)
  if cs1 = ['0'] then .ok 0
  else if cs1.isEmpty then .error "invalid duration"
  else
    match parseDurChunks (cs1.length + 1) 0 cs1 with
    | .error e => .error e
    | .ok d =>
      if neg then .ok (-(d : Int))
      else if d > 2 ^ 63 - 1 then .error "invalid duration"
      else .ok (d : Int)

/-- An exact decimal number: sign, numerator, and a power-of-ten
denominator.  Used for caddy's day-unit rewrite. -/
structure DecimalNum : Type where
  negative : Bool
  num : Nat
  den : Nat
  deriving Repr

/-- Plain decimal parse `[+-]?digits[.digits]` with at least one digit,
as `strconv.ParseFloat` reads the day counts that occur in configs.
(`ParseFloat` also accepts exponent and hex-float forms; a day count in
those forms is not modelled and is rejected here.) -/
def parseDecimalNum (s : List Char) : Option DecimalNum :=
  let (neg, s1) :=
    match s with
    | '-' :: rest => (true, rest)
    | '+' :: rest => (false, rest)
    | _ => (false, s)
  let intPart := s1.takeWhile isDigit
  let s2 := s1.dropWhile isDigit
  match s2 with
  | [] =>
    if intPart.isEmpty then none
    else some ⟨neg, intPart.foldl (fun a c => a * 10 + digitVal c) 0, 1⟩
  | '.' :: s3 =>
    let fracPart := s3.takeWhile isDigit
    let s4 := s3.dropWhile isDigit
    if s4 ≠ [] then none
    else if intPart.isEmpty && fracPart.isEmpty then none
    else
      some ⟨neg,
        (intPart ++ fracPart).foldl (fun a c => a * 10 + digitVal c) 0,
        10 ^ fracPart.length⟩
  | _ => none

/-- Render a `DecimalNum` the way `strconv.FormatFloat(h, 'f', -1, 64)`
renders the exactly-representable values that arise from day counts:
shortest decimal form, no trailing fraction zeros. -/
def formatDecimalNum (d : DecimalNum) : List Char :=
  let intPart := d.num / d.den
  let fracDigits : List Char :=
    (toString ((d.num % d.den) + d.den)).toList.drop 1
  let frac := (fracDigits.reverse.dropWhile (fun c => c = '0')).reverse
  (if d.negative && (d.num ≠ 0) then ['-'] else [])
    ++ (toString intPart).toList
    ++ (if frac.isEmpty then [] else '.' :: frac)

def isNumberChar (c : Char) : Bool :=
  isDigit c || c = '.' || c = '-' || c = '+'

/-- The day-unit rewrite loop of caddy `ParseDuration`: each `d` unit
is replaced in the string by the day count times 24 followed by `h`.
`run` is the current maximal run of number characters (the Go code
tracks its start index as `valStart`).  The Go code computes
`days * 24` in float64 and re-scans from the numeric index it was at;
the model computes exactly and continues after the inserted `h`, which
agrees on inputs where the float computation is exact. -/
def dayRewrite (acc run : List Char) : List Char → Except String (List Char)
  | [] => .ok (acc ++ run)
  | c :: rest =>
    if c = 'd' then
      match parseDecimalNum run with
      | none => .error "invalid day count"
      | some days =>
        let hours := formatDecimalNum ⟨days.negative, days.num * 24, days.den⟩
        dayRewrite (acc ++ hours ++ ['h']) [] rest
    else if isNumberChar c then dayRewrite acc (run ++ [c]) rest
    else dayRewrite (acc ++ run ++ [c]) [] rest

/-- caddy `ParseDuration`: rewrite day units, then time `ParseDuration`. -/
def ParseDuration (s : String) : Except String Int :=
  match dayRewrite [] [] s.toList with
  | .error e => .error e
  | .ok cs => timeParseDuration (String.mk cs)

/-! ## The module: CloudflareIPRange (caddyfile.go) -/

/-- The `CloudflareIPRange` struct.  `Interval` and `Timeout` are
`caddy.Duration` (int64 nanoseconds), `ranges` the parsed CIDR ranges.
The `ctx` and `lock` fields are runtime plumbing: the context is made
explicit where the code consults it (`getContext`, the refresh loop's
cancellation event) and the RW-lock guards the `ranges` writes, which
the embedding represents as whole-value state updates. -/
structure CloudflareIPRange : Type where
  Interval : Int
  Timeout : Int
  ranges : List IPPrefix
  deriving DecidableEq, Repr

/-- What `getContext` returns, as observable data: a context with a
deadline (`context.WithTimeout`) or a merely cancellable one
(`context.WithCancel`). -/
inductive ContextKind : Type
  | cancelOnly
  | withDeadline (timeout : Int)
  deriving DecidableEq, Repr

/-- `getContext`: a cancellable context, with a timeout iff one is
configured strictly positive. -/
def getContext (s : CloudflareIPRange) : ContextKind :=
  if s.Timeout > 0 then .withDeadline s.Timeout else .cancelOnly

/-- The outcome of the HTTP request in `fetch`,
made explicit as input data: either the request/transport layer fails
(`http.NewRequestWithContext` or `http.DefaultClient.Do` returns an
error), or a response arrives and `bufio.Scanner` splits its body into
`lines`. -/
inductive HTTPOutcome : Type
  | transportError (msg : String)
  | response (lines : List String)
  deriving DecidableEq, Repr

/-- Errors out of `fetch`: the forwarded transport error, or the parse
error returned by `CIDRExpressionToPrefix` for some line. -/
inductive FetchError : Type
  | transport (msg : String)
  | parse (msg : String)
  deriving DecidableEq, Repr

/-- The scanner loop of `fetch`: parse each line, abort on the first
error, otherwise append the prefix to the accumulator. -/
def scanLines (acc : List IPPrefix) :
    List String → Except FetchError (List IPPrefix)
  | [] => .ok acc
  | line :: rest =>
    match CIDRExpressionToPrefix line with
    | .error e => .error (.parse e)
    | .ok p => scanLines (acc ++ [p]) rest

/-- `fetch`: on a transport-level failure return that error, otherwise
scan the body line by line.  (The HTTP status code is never consulted,
matching the code.) -/
def fetch : HTTPOutcome → Except FetchError (List IPPrefix)
  | .transportError m => .error (.transport m)
  | .response lines => scanLines [] lines

/-- `Provision`, with the two fetch outcomes (IPv4 source first, then
IPv6 source) as explicit inputs.  Returns the state of the receiver
after the call together with the returned error, mirroring that the Go
method mutates `s.ranges` in place via `append` before it can fail. -/
def Provision (s : CloudflareIPRange) (r4 r6 : HTTPOutcome) :
    CloudflareIPRange × Option FetchError :=
  match fetch r4 with
  | .error e => (s, some e)
  | .ok ps4 =>
    let s1 := { s with ranges := s.ranges ++ ps4 }
    match fetch r6 with
    | .error e => (s1, some e)
    | .ok ps6 => ({ s1 with ranges := s1.ranges ++ ps6 }, none)

/-- The `s.Interval == 0` default substitution at the top of
`refreshLoop` (the Go code assigns `time.Hour` to the field before
creating the ticker). -/
def refreshLoopInit (s : CloudflareIPRange) : CloudflareIPRange :=
  if s.Interval = 0 then { s with Interval := 3600000000000 } else s

/-- `time.NewTicker` panics on a non-positive duration
("non-positive interval for NewTicker"); the panic is modelled as
`none`. -/
structure Ticker : Type where
  period : Int
  deriving DecidableEq, Repr

def NewTicker (d : Int) : Option Ticker :=
  if d ≤ 0 then none else some ⟨d⟩

/-- One `<-ticker.C` arm of the loop: fetch IPv4 then IPv6 into the
local `fullPrefixes`, abandoning the tick (`break` out of the select,
state untouched) if either fetch fails, and replacing `s.ranges` under
the lock when both succeed. -/
def refreshTick (s : CloudflareIPRange) (r4 r6 : HTTPOutcome) :
    CloudflareIPRange :=
  match fetch r4 with
  | .error _ => s
  | .ok ps4 =>
    match fetch r6 with
    | .error _ => s
    | .ok ps6 => { s with ranges := [] ++ ps4 ++ ps6 }

/-- What the `select` inside `refreshLoop` can wake up on: a ticker
tick (whose two fetches then have the given outcomes) or cancellation
of the owning context. -/
inductive LoopEvent : Type
  | tick (r4 r6 : HTTPOutcome)
  | ctxDone
  deriving DecidableEq, Repr

/-- The result of one loop iteration: continue looping with the new
state, or return, recording whether `ticker.Stop()` ran first. -/
inductive LoopStep : Type
  | continued (s : CloudflareIPRange)
  | returned (s : CloudflareIPRange) (tickerStopped : Bool)
  deriving DecidableEq, Repr

/-- One iteration of `refreshLoop`'s `for`/`select`: the tick arm runs
`refreshTick` and falls through to the next iteration (on fetch failure
`break` only leaves the select); the `<-s.ctx.Done()` arm stops the
ticker and returns. -/
def refreshLoopStep (s : CloudflareIPRange) : LoopEvent → LoopStep
  | .tick r4 r6 => .continued (refreshTick s r4 r6)
  | .ctxDone => .returned s true

/-- Run the loop over a finite schedule of wake-ups.  Returns the final
state and whether the loop has returned (which implies the ticker was
stopped); with no cancellation in the schedule the loop is still
running. -/
def refreshLoopRun (s : CloudflareIPRange) :
    List LoopEvent → CloudflareIPRange × Bool
  | [] => (s, false)
  | e :: es =>
    match refreshLoopStep s e with
    | .continued s2 => refreshLoopRun s2 es
    | .returned s2 b => (s2, b)

/-- `GetIPRanges`: the read accessor (the request argument is unused;
the RW read lock guards the read, which the embedding represents as
reading the current state). -/
def GetIPRanges (s : CloudflareIPRange) : List IPPrefix :=
  s.ranges

/-! ## UnmarshalCaddyfile -/

/-- One directive occurrence as the caddyfile dispenser presents it to
`UnmarshalCaddyfile`: the same-line arguments after the directive name,
and the block's tokens grouped into lines (`d.NextBlock(0)` walks the
tokens of the block one by one across lines; `d.NextArg()` only
advances within the current line). -/
structure Directive : Type where
  args : List String
  block : List (List String)
  deriving DecidableEq, Repr

inductive ConfigError : Type
  | argErr
  | durationErr (msg : String)
  deriving DecidableEq, Repr

/-- The interior `for d.NextBlock(0)` loop of `UnmarshalCaddyfile`.
The cursor state is the rest of the current line followed by the
remaining lines; after `interval`/`timeout` consume their one same-line
argument, any further token on that line comes back as the next
`d.Val()` and falls into the `default` branch. -/
def unmarshalBlock (m : CloudflareIPRange) (fuel : Nat) :
    List (List String) → Except ConfigError CloudflareIPRange :=
  match fuel with
  | 0 => fun _ => .error .argErr
  | fuel + 1 => fun lines =>
    match lines with
    | [] => .ok m
    | [] :: rest => unmarshalBlock m fuel rest
    | (tok :: lineRest) :: rest =>
      if tok = "interval" then
        match lineRest with
        | [] => .error .argErr
        | v :: lineRest2 =>
          match ParseDuration v with
          | .error e => .error (.durationErr e)
          | .ok val => unmarshalBlock { m with Interval := val } fuel (lineRest2 :: rest)
      else if tok = "timeout" then
        match lineRest with
        | [] => .error .argErr
        | v :: lineRest2 =>
          match ParseDuration v with
          | .error e => .error (.durationErr e)
          | .ok val => unmarshalBlock { m with Timeout := val } fuel (lineRest2 :: rest)
      else .error .argErr

/-- Enough fuel to walk every token and line boundary of a block. -/
def blockFuel (lines : List (List String)) : Nat :=
  lines.foldr (fun line n => line.length + 1 + n) 0 + 1

/-- `UnmarshalCaddyfile` on one directive occurrence: no same-line
options are supported, then the block is processed. -/
def UnmarshalCaddyfile (m : CloudflareIPRange) (d : Directive) :
    Except ConfigError CloudflareIPRange :=
  if !d.args.isEmpty then .error .argErr
  else unmarshalBlock m (blockFuel d.block) d.block

/-- Apply `f` to every element, succeeding only when every application
succeeds (used to state "every line parses"). -/
def mapOption {α β : Type} (f : α → Option β) : List α → Option (List β)
  | [] => some []
  | x :: xs =>
    match f x with
    | none => none
    | some y =>
      match mapOption f xs with
      | none => none
      | some ys => some (y :: ys)

/-! ## Sanity checks of the embedding on concrete inputs -/

/-! Sanity checks of the library model on concrete inputs. -/

example : ParseAddr "192.0.2.0" = .ok (.v4 192 0 2 0) := by decide
example : ParsePrefix "192.0.2.0/24" = .ok ⟨.v4 192 0 2 0, 24⟩ := by decide
example : ParseAddr "2001:db8::" =
    .ok (.v6 [8193, 3512, 0, 0, 0, 0, 0, 0] "") := by decide
example : (ParsePrefix "2001:db8::/32").toOption.map IPPrefix.render =
    some "2001:db8::/32" := by decide
example : ParseAddr "::ffff:1.2.3.4" =
    .ok (.v6 [0, 0, 0, 0, 0, 65535, 258, 772] "") := by decide
example : (ParseAddr "::ffff:1.2.3.4").toOption.map Addr.render =
    some "::ffff:1.2.3.4" := by decide
example : (ParseAddr "::1.2.3.4").toOption.map Addr.render =
    some "::102:304" := by decide
example : (ParseAddr "fe80::1%eth0").toOption.map Addr.render =
    some "fe80::1%eth0" := by decide
example : (ParseAddr "1:2:3:4:5:6:7:8").toOption.map Addr.render =
    some "1:2:3:4:5:6:7:8" := by decide
example : (ParseAddr "not-a-cidr").isOk = false := by decide
example : (ParsePrefix "2001:db8::%x/32").isOk = false := by decide
example : (ParsePrefix "192.0.2.0/024").isOk = false := by decide
example : (ParsePrefix "192.0.2.0/33").isOk = false := by decide
example : (CIDRExpressionToPrefix "1.2.3.4").toOption.map IPPrefix.render =
    some "1.2.3.4/32" := by decide
example : (CIDRExpressionToPrefix "").isOk = false := by decide

example : ParseDuration "30s" = .ok 30000000000 := by decide
example : ParseDuration "1.5h" = .ok 5400000000000 := by decide
example : ParseDuration "1h30m" = .ok 5400000000000 := by decide
example : ParseDuration "-10s" = .ok (-10000000000) := by decide
example : ParseDuration "1d" = .ok 86400000000000 := by decide
example : ParseDuration "1.5d" = .ok 129600000000000 := by decide
example : ParseDuration "100ms" = .ok 100000000 := by decide
example : ParseDuration "0" = .ok 0 := by decide
example : (ParseDuration "always").isOk = false := by decide
example : (ParseDuration "10").isOk = false := by decide
example : (ParseDuration "").isOk = false := by decide

example :
    UnmarshalCaddyfile ⟨0, 0, []⟩ ⟨[], [["interval", "1.5h"], ["timeout", "30s"]]⟩
      = .ok ⟨5400000000000, 30000000000, []⟩ := by decide
example :
    UnmarshalCaddyfile ⟨0, 0, []⟩ ⟨[], []⟩ = .ok ⟨0, 0, []⟩ := by decide
example :
    UnmarshalCaddyfile ⟨0, 0, []⟩ ⟨["x"], []⟩ = .error .argErr := by decide
example :
    UnmarshalCaddyfile ⟨0, 0, []⟩ ⟨[], [["interval", "1h", "2h"]]⟩
      = .error .argErr := by decide
example :
    UnmarshalCaddyfile ⟨0, 0, []⟩ ⟨[], [["other"]]⟩ = .error .argErr := by decide

/-! ## Helper lemmas -/

lemma mapOption_length {α β : Type} (f : α → Option β) :
    ∀ (xs : List α) (ys : List β), mapOption f xs = some ys →
      ys.length = xs.length := by
  intro xs
  induction xs with
  | nil =>
    intro ys h
    simp only [mapOption, Option.some.injEq] at h
    simp [← h]
  | cons x xs ih =>
    intro ys h
    simp only [mapOption] at h
    cases hx : f x with
    | none => simp [hx] at h
    | some y =>
      rw [hx] at h
      cases hxs : mapOption f xs with
      | none => rw [hxs] at h; cases h
      | some ys2 =>
        rw [hxs] at h
        cases h
        simp [ih ys2 hxs]

lemma mapOption_mem {α β : Type} (f : α → Option β) :
    ∀ (xs : List α) (ys : List β), mapOption f xs = some ys →
      ∀ x ∈ xs, ∃ y, f x = some y := by
  intro xs
  induction xs with
  | nil => intro ys _ x hx; cases hx
  | cons a xs ih =>
    intro ys h x hx
    simp only [mapOption] at h
    cases ha : f a with
    | none => simp [ha] at h
    | some y =>
      rw [ha] at h
      cases hxs : mapOption f xs with
      | none => rw [hxs] at h; cases h
      | some ys2 =>
        rcases List.mem_cons.mp hx with rfl | hmem
        · exact ⟨y, ha⟩
        · exact ih ys2 hxs x hmem

lemma mapOption_get {α β : Type} (f : α → Option β) :
    ∀ (xs : List α) (ys : List β), mapOption f xs = some ys →
      ∀ i (h1 : i < xs.length) (h2 : i < ys.length),
        f (xs.get ⟨i, h1⟩) = some (ys.get ⟨i, h2⟩) := by
  intro xs
  induction xs with
  | nil => intro ys _ i h1; simp at h1
  | cons a xs ih =>
    intro ys h i h1 h2
    simp only [mapOption] at h
    cases ha : f a with
    | none => simp [ha] at h
    | some y =>
      rw [ha] at h
      cases hxs : mapOption f xs with
      | none => rw [hxs] at h; cases h
      | some ys2 =>
        rw [hxs] at h
        cases h
        cases i with
        | zero => simp [ha]
        | succ j =>
          simp only [List.get_cons_succ]
          exact ih ys2 hxs j (by simpa using h1) (by simpa using h2)

lemma scanLines_of_mapOption :
    ∀ (lines : List String) (acc ps : List IPPrefix),
      mapOption (fun l => (CIDRExpressionToPrefix l).toOption) lines = some ps →
      scanLines acc lines = .ok (acc ++ ps) := by
  intro lines
  induction lines with
  | nil =>
    intro acc ps h
    simp only [mapOption, Option.some.injEq] at h
    simp [scanLines, ← h]
  | cons l ls ih =>
    intro acc ps h
    simp only [mapOption] at h
    cases hC : CIDRExpressionToPrefix l with
    | error e =>
      have hO : (CIDRExpressionToPrefix l).toOption = none := by
        rw [hC]; rfl
      rw [hO] at h
      simp at h
    | ok p =>
      have hO : (CIDRExpressionToPrefix l).toOption = some p := by
        rw [hC]; rfl
      rw [hO] at h
      cases hls : mapOption (fun l => (CIDRExpressionToPrefix l).toOption) ls with
      | none => rw [hls] at h; cases h
      | some qs =>
        rw [hls] at h
        cases h
        simp only [scanLines, hC]
        rw [ih (acc ++ [p]) qs hls]
        simp

lemma scanLines_first_error :
    ∀ (pre : List String) (acc : List IPPrefix) (bad : String)
      (post : List String) (e : String),
      (∀ l ∈ pre, (CIDRExpressionToPrefix l).isOk = true) →
      CIDRExpressionToPrefix bad = .error e →
      scanLines acc (pre ++ bad :: post) = .error (.parse e) := by
  intro pre
  induction pre with
  | nil =>
    intro acc bad post e _ hbad
    simp [scanLines, hbad]
  | cons l ls ih =>
    intro acc bad post e hok hbad
    cases hC : CIDRExpressionToPrefix l with
    | error e2 =>
      have := hok l (List.mem_cons_self l ls)
      rw [hC] at this
      simp [Except.isOk, Except.toBool] at this
    | ok p =>
      simp only [List.cons_append, scanLines, hC]
      exact ih (acc ++ [p]) bad post e
        (fun x hx => hok x (List.mem_cons_of_mem l hx)) hbad

/-! ## Claim theorems -/

/-- C1: in a refresh tick, if the IPv4 fetch fails, or the IPv4 fetch
succeeds and the IPv6 fetch fails, the state (and so the published
`ranges` field) is left completely unchanged; only when both fetches
succeed is the set replaced, and then it is the IPv4 result followed by
the IPv6 result, which is what `GetIPRanges` returns afterwards. -/
theorem refreshTick_frame (s : CloudflareIPRange) (r4 r6 : HTTPOutcome) :
    (∀ e, fetch r4 = .error e → refreshTick s r4 r6 = s)
    ∧ (∀ ps4 e, fetch r4 = .ok ps4 → fetch r6 = .error e →
        refreshTick s r4 r6 = s)
    ∧ (∀ ps4 ps6, fetch r4 = .ok ps4 → fetch r6 = .ok ps6 →
        refreshTick s r4 r6 = { s with ranges := ps4 ++ ps6 }
        ∧ GetIPRanges (refreshTick s r4 r6) = ps4 ++ ps6) := by
  refine ⟨?_, ?_, ?_⟩
  · intro e h4
    simp [refreshTick, h4]
  · intro ps4 e h4 h6
    simp [refreshTick, h4, h6]
  · intro ps4 ps6 h4 h6
    constructor
    · simp [refreshTick, h4, h6]
    · simp [refreshTick, h4, h6, GetIPRanges]

/-- Witness for C1: a concrete failing tick leaves a concrete state
unchanged, and a concrete successful tick publishes the concatenation. -/
theorem refreshTick_frame_witness :
    refreshTick ⟨0, 0, [⟨.v4 9 9 9 9, 32⟩]⟩ (.response ["1.0.0.0/24"])
        (.transportError "boom")
      = ⟨0, 0, [⟨.v4 9 9 9 9, 32⟩]⟩
    ∧ GetIPRanges (refreshTick ⟨0, 0, [⟨.v4 9 9 9 9, 32⟩]⟩
        (.response ["1.0.0.0/24"]) (.response ["2001:db8::/32"]))
      = [⟨.v4 1 0 0 0, 24⟩, ⟨.v6 [8193, 3512, 0, 0, 0, 0, 0, 0] "", 32⟩] :=
  ⟨(refreshTick_frame ⟨0, 0, [⟨.v4 9 9 9 9, 32⟩]⟩ (.response ["1.0.0.0/24"])
      (.transportError "boom")).2.1 [⟨.v4 1 0 0 0, 24⟩] (.transport "boom")
      (by decide) (by decide),
   ((refreshTick_frame ⟨0, 0, [⟨.v4 9 9 9 9, 32⟩]⟩ (.response ["1.0.0.0/24"])
      (.response ["2001:db8::/32"])).2.2 [⟨.v4 1 0 0 0, 24⟩]
      [⟨.v6 [8193, 3512, 0, 0, 0, 0, 0, 0] "", 32⟩] (by decide) (by decide)).2⟩

/-- C2: `Provision` fetches IPv4 then IPv6 synchronously; if either
fetch errors it returns that error, and on a fresh module, when both
succeed, the first published range set is the IPv4 list concatenated
with the IPv6 list, with length `ipv4Count + ipv6Count`. -/
theorem Provision_spec (s : CloudflareIPRange) (r4 r6 : HTTPOutcome) :
    (∀ e, fetch r4 = .error e → (Provision s r4 r6).2 = some e)
    ∧ (∀ ps4 e, fetch r4 = .ok ps4 → fetch r6 = .error e →
        (Provision s r4 r6).2 = some e)
    ∧ (∀ ps4 ps6, fetch r4 = .ok ps4 → fetch r6 = .ok ps6 → s.ranges = [] →
        Provision s r4 r6 = ({ s with ranges := ps4 ++ ps6 }, none)
        ∧ (Provision s r4 r6).1.ranges.length = ps4.length + ps6.length) := by
  refine ⟨?_, ?_, ?_⟩
  · intro e h4
    simp [Provision, h4]
  · intro ps4 e h4 h6
    simp [Provision, h4, h6]
  · intro ps4 ps6 h4 h6 hranges
    constructor
    · simp [Provision, h4, h6, hranges]
    · simp [Provision, h4, h6, hranges]

/-- Witness for C2: concrete outcomes for all three conjuncts. -/
theorem Provision_spec_witness :
    (Provision ⟨0, 0, []⟩ (.transportError "down") (.response [])).2
      = some (.transport "down")
    ∧ (Provision ⟨0, 0, []⟩ (.response ["1.0.0.0/24"]) (.transportError "down")).2
      = some (.transport "down")
    ∧ Provision ⟨0, 0, []⟩ (.response ["1.0.0.0/24"]) (.response ["2001:db8::/32"])
      = (⟨0, 0, [⟨.v4 1 0 0 0, 24⟩, ⟨.v6 [8193, 3512, 0, 0, 0, 0, 0, 0] "", 32⟩]⟩,
         none) :=
  ⟨(Provision_spec ⟨0, 0, []⟩ (.transportError "down") (.response [])).1
      (.transport "down") (by decide),
   (Provision_spec ⟨0, 0, []⟩ (.response ["1.0.0.0/24"]) (.transportError "down")).2.1
      [⟨.v4 1 0 0 0, 24⟩] (.transport "down") (by decide) (by decide),
   ((Provision_spec ⟨0, 0, []⟩ (.response ["1.0.0.0/24"]) (.response ["2001:db8::/32"])).2.2
      [⟨.v4 1 0 0 0, 24⟩] [⟨.v6 [8193, 3512, 0, 0, 0, 0, 0, 0] "", 32⟩]
      (by decide) (by decide) rfl).1⟩

/-- C5 counterexample: both sources return empty bodies; `Provision`
succeeds (returns no error) with an empty published range set — there
is no non-emptiness check. -/
theorem Provision_empty_success :
    Provision ⟨0, 0, []⟩ (.response []) (.response []) = (⟨0, 0, []⟩, none)
    ∧ (Provision ⟨0, 0, []⟩ (.response []) (.response [])).1.ranges = [] := by
  decide

/-- C5 amended: `Provision` fails exactly when one of the two fetches
fails; it performs no emptiness check, so a successful provisioning can
publish an empty range set. -/
theorem Provision_fails_iff_fetch_fails (s : CloudflareIPRange)
    (r4 r6 : HTTPOutcome) :
    (Provision s r4 r6).2 = none
      ↔ ((fetch r4).isOk = true ∧ (fetch r6).isOk = true) := by
  cases h4 : fetch r4 with
  | error e => simp [Provision, h4, Except.isOk, Except.toBool]
  | ok ps4 =>
    cases h6 : fetch r6 with
    | error e => simp [Provision, h4, h6, Except.isOk, Except.toBool]
    | ok ps6 => simp [Provision, h4, h6, Except.isOk, Except.toBool]

/-- C9: when the IPv4 fetch succeeds and the IPv6 fetch fails,
`Provision` returns the error but the receiver has already appended the
IPv4 prefixes to `ranges` — failed initialization is not atomic on
internal state, unlike a refresh tick, which leaves the state untouched
on the same outcomes. -/
theorem Provision_partial_on_v6_failure (s : CloudflareIPRange)
    (r4 r6 : HTTPOutcome) (ps4 : List IPPrefix) (e : FetchError)
    (h4 : fetch r4 = .ok ps4) (h6 : fetch r6 = .error e) :
    Provision s r4 r6 = ({ s with ranges := s.ranges ++ ps4 }, some e)
    ∧ refreshTick s r4 r6 = s := by
  constructor
  · simp [Provision, h4, h6]
  · simp [refreshTick, h4, h6]

/-- Witness for C9: a concrete partial provision. -/
theorem Provision_partial_on_v6_failure_witness :
    Provision ⟨0, 0, [⟨.v4 9 9 9 9, 32⟩]⟩ (.response ["1.0.0.0/24"])
        (.transportError "down")
      = (⟨0, 0, [⟨.v4 9 9 9 9, 32⟩, ⟨.v4 1 0 0 0, 24⟩]⟩,
         some (.transport "down"))
    ∧ refreshTick ⟨0, 0, [⟨.v4 9 9 9 9, 32⟩]⟩ (.response ["1.0.0.0/24"])
        (.transportError "down")
      = ⟨0, 0, [⟨.v4 9 9 9 9, 32⟩]⟩ :=
  Provision_partial_on_v6_failure ⟨0, 0, [⟨.v4 9 9 9 9, 32⟩]⟩
    (.response ["1.0.0.0/24"]) (.transportError "down")
    [⟨.v4 1 0 0 0, 24⟩] (.transport "down") (by decide) (by decide)

/-- C3: when the body has a line that fails to parse (`bad`, preceded
by lines that all parse), `fetch` returns the parse error of that first
failing line, and returns no prefixes at all. -/
theorem fetch_first_parse_error (pre : List String) (bad : String)
    (post : List String) (e : String)
    (hpre : ∀ l ∈ pre, (CIDRExpressionToPrefix l).isOk = true)
    (hbad : CIDRExpressionToPrefix bad = .error e) :
    fetch (.response (pre ++ bad :: post)) = .error (.parse e)
    ∧ ∀ ps, fetch (.response (pre ++ bad :: post)) ≠ .ok ps := by
  have h : fetch (.response (pre ++ bad :: post)) = .error (.parse e) :=
    scanLines_first_error pre [] bad post e hpre hbad
  exact ⟨h, fun ps hps => by rw [h] at hps; cases hps⟩

/-- Witness for C3: the spec's own example line `not-a-cidr` after one
good line aborts the whole fetch. -/
theorem fetch_first_parse_error_witness :
    fetch (.response ["192.0.2.0/24", "not-a-cidr", "10.0.0.0/8"])
      = .error (.parse "invalid IP address: not-a-cidr: unable to parse IP") :=
  (fetch_first_parse_error ["192.0.2.0/24"] "not-a-cidr" ["10.0.0.0/8"]
    "invalid IP address: not-a-cidr: unable to parse IP"
    (by decide) (by decide)).1

/-- C4 counterexample: the body consisting of the single well-formed
line `1.2.3.4` (a bare address is a valid CIDR expression) fetches
successfully, but the resulting prefix renders as `1.2.3.4/32`, not as
the input line — so the Nth prefix does not always render back to the
same text as the Nth line. -/
theorem fetch_roundtrip_counterexample :
    fetch (.response ["1.2.3.4"]) = .ok [⟨.v4 1 2 3 4, 32⟩]
    ∧ IPPrefix.render ⟨.v4 1 2 3 4, 32⟩ = "1.2.3.4/32"
    ∧ "1.2.3.4/32" ≠ "1.2.3.4" := by
  refine ⟨by decide, by decide, by decide⟩

/-- C4 amended: for a body all of whose lines parse as CIDR expressions
(which forces every line to be non-empty), `fetch` succeeds and returns
exactly the lists of parses in order: the length equals the number of
lines (equivalently, of non-empty lines) and the Nth prefix is the
parse of the Nth line.  Its rendering is the canonical CIDR text of
that line, which can differ from the line itself (a bare address gains
its full prefix length, as the counterexample shows). -/
theorem fetch_all_lines_wellformed (lines : List String)
    (ps : List IPPrefix)
    (h : mapOption (fun l => (CIDRExpressionToPrefix l).toOption) lines
          = some ps) :
    fetch (.response lines) = .ok ps
    ∧ ps.length = lines.length
    ∧ (∀ l ∈ lines, l ≠ "")
    ∧ ps.length = (lines.filter (fun l => l != "")).length
    ∧ ∀ i (h1 : i < lines.length) (h2 : i < ps.length),
        CIDRExpressionToPrefix (lines.get ⟨i, h1⟩) = .ok (ps.get ⟨i, h2⟩) := by
  have hne : ∀ l ∈ lines, l ≠ "" := by
    intro l hl hemp
    obtain ⟨p, hp⟩ := mapOption_mem _ lines ps h l hl
    rw [hemp] at hp
    cases hp.symm.trans (show ((CIDRExpressionToPrefix "").toOption = none) by decide)
  refine ⟨?_, mapOption_length _ lines ps h, hne, ?_, ?_⟩
  · have := scanLines_of_mapOption lines [] ps h
    simpa [fetch] using this
  · rw [List.filter_eq_self.mpr, mapOption_length _ lines ps h]
    intro a ha
    simpa using hne a ha
  · intro i h1 h2
    have := mapOption_get _ lines ps h i h1 h2
    cases hC : CIDRExpressionToPrefix (lines.get ⟨i, h1⟩) with
    | error e => rw [hC] at this; cases this
    | ok p =>
      rw [hC] at this
      cases this
      rfl

/-- Witness for C4 (amended): a concrete two-line body, with the spec's
example lines. -/
theorem fetch_all_lines_wellformed_witness :
    fetch (.response ["192.0.2.0/24", "2001:db8::/32"])
      = .ok [⟨.v4 192 0 2 0, 24⟩, ⟨.v6 [8193, 3512, 0, 0, 0, 0, 0, 0] "", 32⟩]
    ∧ [(⟨.v4 192 0 2 0, 24⟩ : IPPrefix), ⟨.v6 [8193, 3512, 0, 0, 0, 0, 0, 0] "", 32⟩].length
      = ["192.0.2.0/24", "2001:db8::/32"].length :=
  ⟨(fetch_all_lines_wellformed ["192.0.2.0/24", "2001:db8::/32"]
      [⟨.v4 192 0 2 0, 24⟩, ⟨.v6 [8193, 3512, 0, 0, 0, 0, 0, 0] "", 32⟩]
      (by decide)).1,
   (fetch_all_lines_wellformed ["192.0.2.0/24", "2001:db8::/32"]
      [⟨.v4 192 0 2 0, 24⟩, ⟨.v6 [8193, 3512, 0, 0, 0, 0, 0, 0] "", 32⟩]
      (by decide)).2.1⟩

/-- C6: an unconfigured (zero) interval resolves to one hour at the top
of the refresh loop; an unconfigured (zero) timeout makes `getContext`
return a cancellable context with no deadline, and a strictly positive
timeout makes it return a context carrying that deadline. -/
theorem defaults_spec (s : CloudflareIPRange) :
    (s.Interval = 0 → (refreshLoopInit s).Interval = 3600000000000)
    ∧ (s.Timeout = 0 → getContext s = .cancelOnly)
    ∧ (s.Timeout > 0 → getContext s = .withDeadline s.Timeout) := by
  refine ⟨?_, ?_, ?_⟩
  · intro h
    simp [refreshLoopInit, h]
  · intro h
    simp [getContext, h]
  · intro h
    simp [getContext, h]

/-- Witness for C6: concrete states for each conjunct. -/
theorem defaults_spec_witness :
    (refreshLoopInit ⟨0, 0, []⟩).Interval = 3600000000000
    ∧ getContext ⟨0, 0, []⟩ = .cancelOnly
    ∧ getContext ⟨0, 15000000000, []⟩ = .withDeadline 15000000000 :=
  ⟨(defaults_spec ⟨0, 0, []⟩).1 rfl,
   (defaults_spec ⟨0, 0, []⟩).2.1 rfl,
   (defaults_spec ⟨0, 15000000000, []⟩).2.2 (by decide)⟩

/-- C7: over any finite schedule of wake-ups, the refresh loop has
returned exactly when the schedule contains a cancellation of the
owning context; a tick — whatever its fetch outcomes — always continues
the loop, and the cancellation arm stops the ticker before returning. -/
theorem refreshLoop_exit_only_on_cancel (s : CloudflareIPRange) :
    (∀ events : List LoopEvent,
        (refreshLoopRun s events).2 = true ↔ LoopEvent.ctxDone ∈ events)
    ∧ (∀ r4 r6, refreshLoopStep s (.tick r4 r6)
        = .continued (refreshTick s r4 r6))
    ∧ refreshLoopStep s .ctxDone = .returned s true := by
  refine ⟨?_, fun r4 r6 => rfl, rfl⟩
  intro events
  induction events generalizing s with
  | nil => simp [refreshLoopRun]
  | cons e es ih =>
    cases e with
    | tick r4 r6 =>
      simp only [refreshLoopRun, refreshLoopStep, List.mem_cons]
      rw [ih (refreshTick s r4 r6)]
      simp
    | ctxDone => simp [refreshLoopRun, refreshLoopStep]

/-- C10: the one-hour default replaces the interval only when it is
exactly zero; every strictly negative interval is handed unchanged to
the ticker constructor, which rejects it (Go panics), so the loop start
is panic-free exactly on nonnegative intervals. -/
theorem negative_interval_panics (s : CloudflareIPRange) :
    (s.Interval ≠ 0 → refreshLoopInit s = s)
    ∧ (s.Interval < 0 →
        (refreshLoopInit s).Interval = s.Interval
        ∧ NewTicker (refreshLoopInit s).Interval = none)
    ∧ (0 ≤ s.Interval →
        ∃ t, NewTicker (refreshLoopInit s).Interval = some t) := by
  refine ⟨?_, ?_, ?_⟩
  · intro h
    simp [refreshLoopInit, h]
  · intro h
    have hne : s.Interval ≠ 0 := by omega
    constructor
    · simp [refreshLoopInit, hne]
    · simp only [refreshLoopInit, hne, if_false, NewTicker]
      simp only [if_pos (by omega : s.Interval ≤ 0)]
  · intro h
    by_cases h0 : s.Interval = 0
    · refine ⟨⟨3600000000000⟩, ?_⟩
      simp [refreshLoopInit, h0, NewTicker]
    · refine ⟨⟨s.Interval⟩, ?_⟩
      have hpos : ¬s.Interval ≤ 0 := by omega
      simp [refreshLoopInit, h0, NewTicker, hpos]

lemma unmarshalBlock_nil (m : CloudflareIPRange) (n : Nat) :
    unmarshalBlock m (n + 1) [] = .ok m := rfl

lemma unmarshalBlock_emptyline (m : CloudflareIPRange) (n : Nat)
    (rest : List (List String)) :
    unmarshalBlock m (n + 1) ([] :: rest) = unmarshalBlock m n rest := rfl

lemma unmarshalBlock_interval (m : CloudflareIPRange) (n : Nat) (v : String)
    (lineRest : List String) (rest : List (List String)) :
    unmarshalBlock m (n + 1) (("interval" :: v :: lineRest) :: rest)
      = match ParseDuration v with
        | .error e => .error (.durationErr e)
        | .ok val =>
          unmarshalBlock { m with Interval := val } n (lineRest :: rest) := rfl

lemma unmarshalBlock_timeout (m : CloudflareIPRange) (n : Nat) (v : String)
    (lineRest : List String) (rest : List (List String)) :
    unmarshalBlock m (n + 1) (("timeout" :: v :: lineRest) :: rest)
      = match ParseDuration v with
        | .error e => .error (.durationErr e)
        | .ok val =>
          unmarshalBlock { m with Timeout := val } n (lineRest :: rest) := rfl

lemma unmarshalBlock_interval_noarg (m : CloudflareIPRange) (n : Nat)
    (rest : List (List String)) :
    unmarshalBlock m (n + 1) (["interval"] :: rest) = .error .argErr := rfl

lemma unmarshalBlock_timeout_noarg (m : CloudflareIPRange) (n : Nat)
    (rest : List (List String)) :
    unmarshalBlock m (n + 1) (["timeout"] :: rest) = .error .argErr := rfl

lemma unmarshalBlock_interval_ok (m : CloudflareIPRange) (n : Nat) (v : String)
    (lineRest : List String) (rest : List (List String)) (val : Int)
    (h : ParseDuration v = .ok val) :
    unmarshalBlock m (n + 1) (("interval" :: v :: lineRest) :: rest)
      = unmarshalBlock { m with Interval := val } n (lineRest :: rest) := by
  rw [unmarshalBlock_interval, h]

lemma unmarshalBlock_interval_err (m : CloudflareIPRange) (n : Nat) (v : String)
    (lineRest : List String) (rest : List (List String)) (e : String)
    (h : ParseDuration v = .error e) :
    unmarshalBlock m (n + 1) (("interval" :: v :: lineRest) :: rest)
      = .error (.durationErr e) := by
  rw [unmarshalBlock_interval, h]

lemma unmarshalBlock_timeout_ok (m : CloudflareIPRange) (n : Nat) (v : String)
    (lineRest : List String) (rest : List (List String)) (val : Int)
    (h : ParseDuration v = .ok val) :
    unmarshalBlock m (n + 1) (("timeout" :: v :: lineRest) :: rest)
      = unmarshalBlock { m with Timeout := val } n (lineRest :: rest) := by
  rw [unmarshalBlock_timeout, h]

lemma unmarshalBlock_timeout_err (m : CloudflareIPRange) (n : Nat) (v : String)
    (lineRest : List String) (rest : List (List String)) (e : String)
    (h : ParseDuration v = .error e) :
    unmarshalBlock m (n + 1) (("timeout" :: v :: lineRest) :: rest)
      = .error (.durationErr e) := by
  rw [unmarshalBlock_timeout, h]

lemma unmarshalBlock_unknown (m : CloudflareIPRange) (n : Nat) (tok : String)
    (lineRest : List String) (rest : List (List String))
    (h1 : tok ≠ "interval") (h2 : tok ≠ "timeout") :
    unmarshalBlock m (n + 1) ((tok :: lineRest) :: rest) = .error .argErr := by
  simp only [unmarshalBlock]
  rw [if_neg h1, if_neg h2]

/-- C8: `UnmarshalCaddyfile` accepts a block with no same-line
arguments whose sub-directives are `interval <duration>` and
`timeout <duration>`, storing the parsed durations in the
corresponding fields; it errors on any same-line argument, any
unrecognized sub-directive token, a missing duration argument, and an
unparsable duration. -/
theorem UnmarshalCaddyfile_spec (m : CloudflareIPRange) :
    (∀ a restArgs block,
        UnmarshalCaddyfile m ⟨a :: restArgs, block⟩ = .error .argErr)
    ∧ (∀ ivs tvs i t, ParseDuration ivs = .ok i → ParseDuration tvs = .ok t →
        UnmarshalCaddyfile m ⟨[], [["interval", ivs], ["timeout", tvs]]⟩
          = .ok { m with Interval := i, Timeout := t })
    ∧ (∀ tok lineRest rest, tok ≠ "interval" → tok ≠ "timeout" →
        UnmarshalCaddyfile m ⟨[], (tok :: lineRest) :: rest⟩ = .error .argErr)
    ∧ (∀ rest, UnmarshalCaddyfile m ⟨[], ["interval"] :: rest⟩ = .error .argErr)
    ∧ (∀ rest, UnmarshalCaddyfile m ⟨[], ["timeout"] :: rest⟩ = .error .argErr)
    ∧ (∀ v lineRest rest e, ParseDuration v = .error e →
        UnmarshalCaddyfile m ⟨[], ("interval" :: v :: lineRest) :: rest⟩
          = .error (.durationErr e))
    ∧ (∀ v lineRest rest e, ParseDuration v = .error e →
        UnmarshalCaddyfile m ⟨[], ("timeout" :: v :: lineRest) :: rest⟩
          = .error (.durationErr e)) := by
  have hfuel : ∀ lines : List (List String), ∃ n, blockFuel lines = n + 1 :=
    fun lines => ⟨_, rfl⟩
  refine ⟨?_, ?_, ?_, ?_, ?_, ?_, ?_⟩
  · intro a restArgs block
    simp [UnmarshalCaddyfile]
  · intro ivs tvs i t hi ht
    have h7 : blockFuel [["interval", ivs], ["timeout", tvs]] = 6 + 1 := rfl
    simp only [UnmarshalCaddyfile, List.isEmpty_nil, Bool.not_true,
      Bool.false_eq_true, if_false, h7]
    rw [unmarshalBlock_interval_ok _ _ _ _ _ _ hi]
    rw [show (6 : Nat) = 5 + 1 from rfl, unmarshalBlock_emptyline]
    rw [show (5 : Nat) = 4 + 1 from rfl, unmarshalBlock_timeout_ok _ _ _ _ _ _ ht]
    rw [show (4 : Nat) = 3 + 1 from rfl, unmarshalBlock_emptyline]
    rw [show (3 : Nat) = 2 + 1 from rfl, unmarshalBlock_nil]
  · intro tok lineRest rest h1 h2
    obtain ⟨n, hn⟩ := hfuel ((tok :: lineRest) :: rest)
    simp only [UnmarshalCaddyfile, List.isEmpty_nil, Bool.not_true,
      Bool.false_eq_true, if_false, hn]
    exact unmarshalBlock_unknown m n tok lineRest rest h1 h2
  · intro rest
    obtain ⟨n, hn⟩ := hfuel (["interval"] :: rest)
    simp only [UnmarshalCaddyfile, List.isEmpty_nil, Bool.not_true,
      Bool.false_eq_true, if_false, hn]
    exact unmarshalBlock_interval_noarg m n rest
  · intro rest
    obtain ⟨n, hn⟩ := hfuel (["timeout"] :: rest)
    simp only [UnmarshalCaddyfile, List.isEmpty_nil, Bool.not_true,
      Bool.false_eq_true, if_false, hn]
    exact unmarshalBlock_timeout_noarg m n rest
  · intro v lineRest rest e he
    obtain ⟨n, hn⟩ := hfuel (("interval" :: v :: lineRest) :: rest)
    simp only [UnmarshalCaddyfile, List.isEmpty_nil, Bool.not_true,
      Bool.false_eq_true, if_false, hn]
    exact unmarshalBlock_interval_err m n v lineRest rest e he
  · intro v lineRest rest e he
    obtain ⟨n, hn⟩ := hfuel (("timeout" :: v :: lineRest) :: rest)
    simp only [UnmarshalCaddyfile, List.isEmpty_nil, Bool.not_true,
      Bool.false_eq_true, if_false, hn]
    exact unmarshalBlock_timeout_err m n v lineRest rest e he

/-- Witness for C8: the repository test's configuration
(`interval 1.5h`, `timeout 30s`) is accepted with the parsed values,
and concrete malformed directives are rejected. -/
theorem UnmarshalCaddyfile_spec_witness :
    UnmarshalCaddyfile ⟨0, 0, []⟩ ⟨[], [["interval", "1.5h"], ["timeout", "30s"]]⟩
      = .ok ⟨5400000000000, 30000000000, []⟩
    ∧ UnmarshalCaddyfile ⟨0, 0, []⟩ ⟨["arg"], []⟩ = .error .argErr
    ∧ UnmarshalCaddyfile ⟨0, 0, []⟩ ⟨[], [["refresh", "1h"]]⟩ = .error .argErr
    ∧ UnmarshalCaddyfile ⟨0, 0, []⟩ ⟨[], [["interval"]]⟩ = .error .argErr
    ∧ UnmarshalCaddyfile ⟨0, 0, []⟩ ⟨[], [["interval", "always"]]⟩
      = .error (.durationErr "invalid duration") :=
  ⟨(UnmarshalCaddyfile_spec ⟨0, 0, []⟩).2.1 "1.5h" "30s"
      5400000000000 30000000000 (by decide) (by decide),
   (UnmarshalCaddyfile_spec ⟨0, 0, []⟩).1 "arg" [] [],
   (UnmarshalCaddyfile_spec ⟨0, 0, []⟩).2.2.1 "refresh" ["1h"] []
      (by decide) (by decide),
   (UnmarshalCaddyfile_spec ⟨0, 0, []⟩).2.2.2.1 [],
   (UnmarshalCaddyfile_spec ⟨0, 0, []⟩).2.2.2.2.2.1 "always" [] []
      "invalid duration" (by decide)⟩

/-- Witness for C10: a concrete negative interval stays negative and
the ticker constructor rejects it; a concrete nonnegative one is
accepted. -/
theorem negative_interval_panics_witness :
    NewTicker (refreshLoopInit ⟨-5, 0, []⟩).Interval = none
    ∧ ∃ t, NewTicker (refreshLoopInit ⟨0, 0, []⟩).Interval = some t :=
  ⟨((negative_interval_panics ⟨-5, 0, []⟩).2.1 (by decide)).2,
   (negative_interval_panics ⟨0, 0, []⟩).2.2 (by decide)⟩

end CloudflareIP
